import Mathlib

/-!
Shallow embedding of the front-coded dictionary section codec of hdt-rs
(`src/dict/dict_sect_pfc.rs`).  Strings are byte lists (`List Nat`, each
entry < 256 on real data); Rust panics (index out of bounds, arithmetic
underflow on `usize`, the explicit `panic!` on invalid UTF-8, division by
zero) are modelled by `Option.none`; construction-time `io::Result` errors
are modelled by `Except`.
-/

namespace HdtRs

/-- Modelled from the spec: the `Sequence` ("Packed Index") component lives in
`src/containers/sequence.rs`, which is not part of the given sources; per
spec §4.2 it is a read-only array of unsigned integers with `get`/`len`,
where `get i` is only defined for `i < len`.  We keep the logical values and
model an out-of-range `get` (an unchecked read at the Rust call sites) as a
panic (`none`). -/
structure Sequence where
  entries : Nat
  vals : List Nat
  deriving Repr, DecidableEq

def Sequence.get (s : Sequence) (i : Nat) : Option Nat :=
  s.vals.get? i

/-- Embeds `struct DictSectPFC` (dict_sect_pfc.rs lines 13-19). -/
structure DictSectPFC where
  num_strings : Nat
  packed_length : Nat
  block_size : Nat
  sequence : Sequence
  packed_data : List Nat
  deriving Repr, DecidableEq

/-- Modelled from the spec: the vbyte codec (`src/containers/vbyte.rs`) is not
part of the given sources.  Per spec §4.1, each byte carries 7 low value bits,
the high bit is a continuation flag (set = more bytes follow), least
significant group first; decoding fails if the buffer ends before a byte with
the high bit clear.  Returns (value, consumed bytes, remaining input). -/
def readVbyteRaw : List Nat → Option (Nat × List Nat × List Nat)
  | [] => none
  | b :: r =>
    if b < 128 then some (b, [b], r)
    else
      match readVbyteRaw r with
      | some (v, bs, r') => some ((b - 128) + 128 * v, b :: bs, r')
      | none => none

/-- Rust `usize::MAX` on a 64-bit machine. -/
def usizeMax : Nat := 2 ^ 64 - 1

/-- Modelled from the spec: §4.1 also demands failure "if decoding would
overflow the target integer width"; the target width is `usize` (64 bit). -/
def readVbyte (l : List Nat) : Option (Nat × List Nat × List Nat) :=
  match readVbyteRaw l with
  | some (v, bs, r) => if v ≤ usizeMax then some (v, bs, r) else none
  | none => none

/-- Modelled from the spec: `decode_vbyte_delta(&data, pos)` (missing
`src/containers/vbyte.rs`) decodes the §4.1 varint starting at byte offset
`pos` of `data` and returns (value, number of bytes consumed); at its call
sites the result is destructured directly, so a malformed varint can only
surface as a panic (`none`). -/
def decode_vbyte_delta (data : List Nat) (pos : Nat) : Option (Nat × Nat) :=
  match readVbyte (data.drop pos) with
  | some (v, bs, _) => some (v, bs.length)
  | none => none

/-- Helper for `strlen`: number of leading bytes before the first 0x00, or the
whole length when no 0x00 occurs. -/
def strlenAux : List Nat → Nat
  | [] => 0
  | b :: r => if b = 0 then 0 else strlenAux r + 1

/-- Embeds `DictSectPFC::strlen` (lines 185-194): scan from `offset` while in
bounds and the byte is nonzero; the result is `position - offset`.  Note the
function is total: reaching the end of the buffer without a terminator
silently yields the remaining length. -/
def DictSectPFC.strlen (s : DictSectPFC) (offset : Nat) : Nat :=
  strlenAux (s.packed_data.drop offset)

/-- Byte-wise lexicographic comparison of two byte strings, the order used by
`element.cmp(...)` in `locate_block` (Rust `str`/byte-slice ordering). -/
def listCompare : List Nat → List Nat → Ordering
  | [], [] => .eq
  | [], _ :: _ => .lt
  | _ :: _, [] => .gt
  | a :: as, b :: bs =>
    if a < b then .lt else if b < a then .gt else listCompare as bs

/-- Validity of a byte sequence as UTF-8, the check done by
`str::from_utf8` (std library, black box for this repo): ASCII bytes stand
alone; multi-byte sequences need the right number of continuation bytes with
the usual range restrictions on the first continuation byte. -/
def utf8Cont (c : Nat) : Bool := 128 ≤ c && c ≤ 191

def validUtf8 : List Nat → Bool
  | [] => true
  | b :: rest =>
    if b < 128 then validUtf8 rest
    else if b < 194 then false
    else if b ≤ 223 then
      match rest with
      | c :: r => utf8Cont c && validUtf8 r
      | [] => false
    else if b ≤ 239 then
      match rest with
      | c1 :: c2 :: r =>
        (if b = 224 then 160 ≤ c1 && c1 ≤ 191
         else if b = 237 then 128 ≤ c1 && c1 ≤ 159
         else utf8Cont c1) && utf8Cont c2 && validUtf8 r
      | _ => false
    else if b ≤ 244 then
      match rest with
      | c1 :: c2 :: c3 :: r =>
        (if b = 240 then 144 ≤ c1 && c1 ≤ 191
         else if b = 244 then 128 ≤ c1 && c1 ≤ 143
         else utf8Cont c1) && utf8Cont c2 && utf8Cont c3 && validUtf8 r
      | _ => false
    else false

namespace DictSectPFC

/-- Embeds the `for _ in 0..string_index` loop of `extract` (lines 162-177):
each iteration advances `position` past the previous string and its
terminator, decodes the shared-prefix varint, advances past it, and measures
the new suffix length.  The accumulated string is NOT touched by the loop in
the source (the reconstruction code is commented out), so the loop only
threads (position, length). -/
def extractLoop (s : DictSectPFC) : Nat → Nat → Nat → Option (Nat × Nat)
  | 0, position, length => some (position, length)
  | n + 1, position, length =>
    let position := position + length + 1
    match decode_vbyte_delta s.packed_data position with
    | none => none
    | some (delta, vbyte_bytes) =>
      let position := position + vbyte_bytes
      let _ := delta
      extractLoop s n position (s.strlen position)

/-- Embeds `DictSectPFC::extract` (lines 151-183).  Panics modelled by `none`:
division by zero when `block_size = 0`, an out-of-range `sequence.get`, the
slice `packed_data[position..position+length]` when `position` exceeds the
buffer length, a malformed varint inside the loop, and the explicit `panic!`
on invalid UTF-8. -/
def extract (s : DictSectPFC) (id : Nat) : Option (List Nat) :=
  if s.num_strings < id then some []
  else if s.block_size = 0 then none
  else
    match s.sequence.get ((id - 1) / s.block_size) with
    | none => none
    | some position =>
      if s.packed_data.length < position then none
      else
        match s.extractLoop ((id - 1) % s.block_size) position
            (s.strlen position) with
        | none => none
        | some _ =>
          if validUtf8 ((s.packed_data.drop position).take (s.strlen position))
          then some ((s.packed_data.drop position).take (s.strlen position))
          else none

/-- Embeds `DictSectPFC::id_to_string` (lines 22-25). -/
def id_to_string (s : DictSectPFC) (id : Nat) : Option (List Nat) :=
  s.extract id

/-- Embeds the `while low <= high` loop of `locate_block` (lines 71-95),
with `max = sequence.entries - 1`.  `high = mid - 1` underflows `usize`
when `mid = 0` (a panic in debug builds), modelled by `none`; likewise an
out-of-range `sequence.get`.  The comparison embeds the source's
`element.cmp(text[pos..])`: `element` against the whole remaining buffer from
`pos`. -/
def lbLoop (s : DictSectPFC) (element : List Nat) :
    Nat → Nat → Nat → Nat → Option (Nat × Bool)
  | 0, _, _, _ => none
  | fuel + 1, low, high, max =>
    if low ≤ high then
      let mid := (low + high) / 2
      let cmp : Option Ordering :=
        if mid = max then some .lt
        else
          match s.sequence.get mid with
          | none => none
          | some pos => some (listCompare element (s.packed_data.drop pos))
      match cmp with
      | none => none
      | some .lt =>
        if mid = 0 then none else lbLoop s element fuel low (mid - 1) max
      | some .gt => lbLoop s element fuel (mid + 1) high max
      | some .eq => some (mid, true)
    else
      if low = 0 then none else some (low - 1, false)

/-- Embeds `DictSectPFC::locate_block` (lines 59-97): binary search over block
first strings with `low = 0`, `high = max = sequence.entries - 1`; the
initial `entries - 1` underflows when `entries = 0` (the guard in the Java
original is commented out in the source). -/
def locate_block (s : DictSectPFC) (element : List Nat) : Option (Nat × Bool) :=
  if s.sequence.entries = 0 then none
  else
    lbLoop s element (s.sequence.entries + 1) 0 (s.sequence.entries - 1)
      (s.sequence.entries - 1)

end DictSectPFC

/-- Length of the longest common prefix of two byte strings (the tail of
`ByteStringUtil.longestCommonPrefix`). -/
def lcp : List Nat → List Nat → Nat
  | a :: as, b :: bs => if a = b then lcp as bs + 1 else 0
  | _, _ => 0

/-- Embeds `ByteStringUtil.longestCommonPrefix(a, b, k)`: the number of
further matching bytes of `a` and `b` starting at index `k`. -/
def lcpFrom (a b : List Nat) (k : Nat) : Nat :=
  lcp (a.drop k) (b.drop k)

namespace DictSectPFC

/-- Embeds the `while (idInBlock < block_size) && (pos < text.length)` loop of
`locate_in_block` (lines 119-142).  State: (pos, idInBlock, cshared,
tempString); returns the final (idInBlock, pos) for the post-loop check, or
`none` on a malformed varint (panic).  On each entry: decode the
shared-prefix varint `delta`, measure the suffix, rebuild
`tempString = tempString[0..delta] ++ suffix`; if `delta >= cshared`, extend
`cshared` by the longest common prefix with `element` from `cshared` and
break on an exact match (returning the current `idInBlock`); otherwise
(`delta < cshared`) set `idInBlock = 0` and break. -/
def libLoop (s : DictSectPFC) (element : List Nat) :
    Nat → Nat → Nat → Nat → List Nat → Option (Nat × Nat)
  | 0, _, _, _, _ => none
  | fuel + 1, pos, idInBlock, cshared, tempString =>
    if idInBlock < s.block_size ∧ pos < s.packed_data.length then
      match decode_vbyte_delta s.packed_data pos with
      | none => none
      | some (delta, vbyte_bytes) =>
        let pos := pos + vbyte_bytes
        let slen := s.strlen pos
        let tempString := tempString.take delta ++ (s.packed_data.drop pos).take slen
        if cshared ≤ delta then
          let cshared := cshared + lcpFrom tempString element cshared
          if cshared = element.length ∧ tempString.length = element.length then
            some (idInBlock, pos)
          else
            libLoop s element fuel (pos + slen + 1) (idInBlock + 1) cshared tempString
        else
          some (0, pos)
    else some (idInBlock, pos)

/-- Embeds `DictSectPFC::locate_in_block` (lines 99-149): reject an
out-of-range block, read the block's first string whole, then run the scan
loop starting at `idInBlock = 1`, `cshared = 0`; afterwards zero the result
when the loop ran off the buffer or through the whole block
(`pos >= text.length || idInBlock == block_size`). -/
def locate_in_block (s : DictSectPFC) (block : Nat) (element : List Nat) :
    Option Nat :=
  if s.sequence.entries ≤ block then some 0
  else
    match s.sequence.get block with
    | none => none
    | some pos =>
      let slen := s.strlen pos
      let tempString := (s.packed_data.drop pos).take slen
      match s.libLoop element (s.block_size + 1) (pos + slen + 1) 1 0 tempString with
      | none => none
      | some (idInBlock, pos') =>
        some (if s.packed_data.length ≤ pos' ∨ idInBlock = s.block_size then 0 else idInBlock)

/-- Embeds `DictSectPFC::locate` (lines 42-57): on a direct block hit the id
is `blocknum * block_size + 1`; otherwise scan inside the candidate block
(the `blocknum >= 0` test in the source is vacuous on `usize`) and map a
nonzero in-block position `idblock` to `blocknum * block_size + idblock + 1`,
else 0. -/
def locate (s : DictSectPFC) (element : List Nat) : Option Nat :=
  match s.locate_block element with
  | none => none
  | some (blocknum, true) => some (blocknum * s.block_size + 1)
  | some (blocknum, false) =>
    match s.locate_in_block blocknum element with
    | none => none
    | some idblock =>
      some (if idblock ≠ 0 then blocknum * s.block_size + idblock + 1 else 0)

/-- Embeds `DictSectPFC::num_strings` (lines 196-198). -/
def numStringsFn (s : DictSectPFC) : Nat :=
  s.num_strings

/-- Method-call embedding of `id_to_string(&self, id)`: the receiver is an
immutable borrow, so a call is the pair (returned value, section after the
call), and the section after the call is the unchanged receiver. -/
def idToStringCall (s : DictSectPFC) (id : Nat) : Option (List Nat) × DictSectPFC :=
  (s.extract id, s)

/-- Method-call embedding of `locate(&self, element)`. -/
def locateCall (s : DictSectPFC) (element : List Nat) : Option Nat × DictSectPFC :=
  (s.locate element, s)

/-- Method-call embedding of `num_strings(&self)`. -/
def numStringsCall (s : DictSectPFC) : Nat × DictSectPFC :=
  (s.num_strings, s)

end DictSectPFC

/-- Construction-time errors of `DictSectPFC::read` (`io::Result` in the
source): truncated reads, a malformed header varint, the two checksum
mismatches, the (dead) oversize guard, and a failure inside the external
`Sequence::read`. -/
inductive ReadError where
  | truncated
  | malformedVarint
  | crc8Mismatch
  | tooLarge
  | seqError
  | crc32Mismatch
  deriving Repr, DecidableEq

/-- Embeds `DictSectPFC::read` (lines 200-264).  The checksum primitives are
black boxes per the spec (§1 "Checksum primitives ... assumed available as
black-box functions"), so they are parameters `crc8`/`crc32`; likewise the
external `Sequence::read` framing is the parameter `seqRead` (spec §6: "exact
framing owned by an external collaborator").  Steps: decode the three header
varints accumulating their raw bytes after the marker byte 0x02, read and
check the CRC-8 byte, check `packed_length > usize::MAX` (unreachable), run
the sequence reader, read `packed_length` bytes of packed data, read the
little-endian CRC-32C and check it. -/
def readSect (crc8 crc32 : List Nat → Nat)
    (seqRead : List Nat → Option (Sequence × List Nat)) (input : List Nat) :
    Except ReadError DictSectPFC :=
  match readVbyte input with
  | none => .error .malformedVarint
  | some (num_strings, nb, r1) =>
    match readVbyte r1 with
    | none => .error .malformedVarint
    | some (packed_length, pb, r2) =>
      match readVbyte r2 with
      | none => .error .malformedVarint
      | some (block_size, bb, r3) =>
        let buffer := 2 :: (nb ++ pb ++ bb)
        match r3 with
        | [] => .error .truncated
        | crc_code :: r4 =>
          if crc8 buffer ≠ crc_code then .error .crc8Mismatch
          else if usizeMax < packed_length then .error .tooLarge
          else
            match seqRead r4 with
            | none => .error .seqError
            | some (sequence, r5) =>
              if r5.length < packed_length then .error .truncated
              else
                let packed_data := r5.take packed_length
                match r5.drop packed_length with
                | b0 :: b1 :: b2 :: b3 :: _ =>
                  let stored := b0 + 256 * b1 + 65536 * b2 + 16777216 * b3
                  if crc32 packed_data ≠ stored then .error .crc32Mismatch
                  else
                    .ok { num_strings, packed_length, block_size, sequence,
                          packed_data }
                | _ => .error .truncated

/-- Byte string "apple". -/
def appleBytes : List Nat := [97, 112, 112, 108, 101]

/-- Byte string "applet". -/
def appletBytes : List Nat := [97, 112, 112, 108, 101, 116]

/-- The section of spec §8's scenario: strings
["apple","applet","apply","banana"] with block_size 4, front-coded as
block 0 = "apple\x00", (5,"t\x00"), (5,"y\x00") and block 1 = "banana\x00";
the packed index holds the block start offsets 0 and 12. -/
def appleSect : DictSectPFC where
  num_strings := 4
  packed_length := 19
  block_size := 4
  sequence := ⟨2, [0, 12]⟩
  packed_data :=
    [97, 112, 112, 108, 101, 0,
     5, 116, 0,
     5, 121, 0,
     98, 97, 110, 97, 110, 97, 0]

/-- A minimal well-formed single-block section holding only "banana". -/
def bananaSect : DictSectPFC where
  num_strings := 1
  packed_length := 7
  block_size := 8
  sequence := ⟨1, [0]⟩
  packed_data := [98, 97, 110, 97, 110, 97, 0]

/-- A section whose single stored string is the byte 0xFF, which is not valid
UTF-8. -/
def badUtf8Sect : DictSectPFC where
  num_strings := 1
  packed_length := 2
  block_size := 1
  sequence := ⟨1, [0]⟩
  packed_data := [255, 0]

/-- A section whose packed data has no 0x00 terminator at all. -/
def noTermSect : DictSectPFC where
  num_strings := 1
  packed_length := 3
  block_size := 1
  sequence := ⟨1, [0]⟩
  packed_data := [1, 2, 3]

/-- Modelled from the spec: §4.3 `string_at(offset)` ("scans forward from
`offset` until a 0x00 byte; fails with `OutOfBounds` if the terminator is not
found before the buffer end"), a fallible reader that has no counterpart
under src/ — the source's `strlen` is total. -/
def string_at_spec (data : List Nat) (offset : Nat) :
    Except Unit (List Nat × Nat) :=
  if 0 ∈ data.drop offset then
    .ok ((data.drop offset).take (strlenAux (data.drop offset)),
         strlenAux (data.drop offset) + 1)
  else .error ()

/-- Helper: a buffer with no 0x00 byte makes `strlenAux` return its whole
length. -/
theorem strlenAux_of_not_mem (l : List Nat) (h : 0 ∉ l) :
    strlenAux l = l.length := by
  induction l with
  | nil => rfl
  | cons b r ih =>
    simp only [List.mem_cons, not_or] at h
    simp only [strlenAux, List.length_cons]
    rw [if_neg (fun hb => h.1 hb.symm), ih h.2]

/-- Helper: a successful `readVbyte` never exceeds `usize::MAX`. -/
theorem readVbyte_le_usizeMax {l : List Nat} {v : Nat} {bs r : List Nat}
    (h : readVbyte l = some (v, bs, r)) : v ≤ usizeMax := by
  unfold readVbyte at h
  cases hraw : readVbyteRaw l with
  | none => rw [hraw] at h; exact absurd h (by simp)
  | some x =>
    obtain ⟨v', bs', r'⟩ := x
    rw [hraw] at h
    dsimp only at h
    split at h
    · obtain ⟨rfl, -, -⟩ := by simpa using h
      assumption
    · exact absurd h (by simp)

/-- C1: the round-trip `string_to_id(id_to_string(id)) = id` fails on the
code.  On the well-formed §8 scenario section, `extract 2` yields "apple"
(the block's first string, because the front-coding reconstruction in the
loop is commented out), and `locate "apple"` panics (usize underflow
`high = mid - 1` at `mid = 0` in `locate_block`), so the composition is a
panic, not 2. -/
theorem C1_roundtrip_fails_at_id2 :
    appleSect.extract 2 = some appleBytes ∧
    appleSect.locate appleBytes = none ∧ appleBytes ≠ appletBytes := by
  decide

/-- C2: `id_to_string(2)` on the §8 scenario section returns "apple", not the
front-coded reconstruction "applet": the loop in `extract` advances past the
`(shared_prefix_len, suffix)` entries but never applies them to the string
(the reconstruction code is commented out in the source). -/
theorem C2_extract_ignores_suffixes :
    appleSect.id_to_string 2 = some appleBytes ∧ appleBytes ≠ appletBytes := by
  decide

/-- C3: `id_to_string(0)` is not rejected: the guard in `extract` only tests
`id > num_strings`, so id 0 falls into the in-range path (via
`saturating_sub`) and returns block 0's first string "apple" instead of the
empty string; the `id > num_strings` half does hold (`id_to_string(5)` is
empty). -/
theorem C3_id_zero_not_rejected :
    appleSect.id_to_string 0 = some appleBytes ∧
    appleSect.id_to_string 0 ≠ some [] ∧
    appleSect.id_to_string 5 = some [] := by
  decide

/-- C6: the inter-block binary search does not terminate without panicking on
every well-formed section: on a single-block section (`entries = 1`), the
first iteration takes the `mid = max` shortcut to `Ordering::Less` and then
computes `high = mid - 1 = 0 - 1`, a usize underflow (panic in debug
builds), for every needle. -/
theorem C6_locate_block_underflows :
    bananaSect.locate_block [97] = none ∧ bananaSect.locate [97] = none := by
  decide

/-- C8 counterexample: on a buffer with no 0x00 terminator, `strlen` does not
fail with `OutOfBounds` — it silently returns the remaining length 3 (its
return type `usize` has no error channel), unlike the spec's `string_at`,
which fails there. -/
theorem C8_counterexample :
    noTermSect.strlen 0 = 3 ∧
    string_at_spec noTermSect.packed_data 0 = .error () :=
  ⟨rfl, rfl⟩

/-- C8 amended: when no 0x00 byte occurs between `offset` and the end of the
block-store buffer, `strlen` silently returns the distance from `offset` to
the buffer end (rather than failing with an `OutOfBounds` error). -/
theorem C8_amended_strlen_silent (s : DictSectPFC) (offset : Nat)
    (h : 0 ∉ s.packed_data.drop offset) :
    s.strlen offset = s.packed_data.length - offset := by
  unfold DictSectPFC.strlen
  rw [strlenAux_of_not_mem _ h, List.length_drop]

/-- Witness for `C8_amended_strlen_silent` on the terminator-free section. -/
theorem C8_amended_witness : noTermSect.strlen 0 = 3 := by
  have h := C8_amended_strlen_silent noTermSect 0 (by decide)
  simpa using h

/-- C4 counterexample: decoding does panic on malformed data: on a section
whose stored bytes are the invalid UTF-8 sequence [0xFF], `extract 1`
reaches the explicit `panic!` in the source (`Err(e) => panic!(...)`), it
does not surface a typed decode error. -/
theorem C4_counterexample : badUtf8Sect.extract 1 = none := by
  decide

/-- C4 amended: invalid UTF-8 in the decoded first-entry bytes makes
`extract` panic (modelled `none`) instead of returning a typed decode error:
whenever the in-range path is taken and the bytes sliced for the block's
first string are not valid UTF-8, the result is the panic marker. -/
theorem C4_amended_invalid_utf8_panics (s : DictSectPFC) (id p : Nat)
    (hid : id ≤ s.num_strings) (hbs : s.block_size ≠ 0)
    (hget : s.sequence.get ((id - 1) / s.block_size) = some p)
    (hutf : validUtf8 ((s.packed_data.drop p).take (s.strlen p)) = false) :
    s.extract id = none := by
  unfold DictSectPFC.extract
  rw [if_neg (Nat.not_lt.mpr hid), if_neg hbs, hget]
  dsimp only
  by_cases hlen : s.packed_data.length < p
  · rw [if_pos hlen]
  · rw [if_neg hlen]
    cases hloop : s.extractLoop ((id - 1) % s.block_size) p (s.strlen p) with
    | none => rfl
    | some x => simp [hutf]

/-- Witness for `C4_amended_invalid_utf8_panics` on the invalid-UTF-8
section. -/
theorem C4_amended_witness : badUtf8Sect.extract 1 = none :=
  C4_amended_invalid_utf8_panics badUtf8Sect 1 0 (by decide) (by decide)
    (by decide) (by decide)

/-- C10: whenever `extract` returns a string for a valid id, it is exactly
the string it returns for the first id of that id's block: the loop over the
local position only advances (position, length) past the
`(varint, suffix, terminator)` entries, so the returned bytes are always the
block's first entry. -/
theorem C10_extract_returns_block_head (s : DictSectPFC) (id : Nat)
    (r : List Nat) (h1 : 1 ≤ id) (h2 : id ≤ s.num_strings)
    (hok : s.extract id = some r) :
    s.extract ((id - 1) / s.block_size * s.block_size + 1) = some r := by
  unfold DictSectPFC.extract at hok ⊢
  rw [if_neg (Nat.not_lt.mpr h2)] at hok
  by_cases hbs : s.block_size = 0
  · rw [if_pos hbs] at hok
    exact absurd hok (by simp)
  · rw [if_neg hbs] at hok
    have hpos : 0 < s.block_size := Nat.pos_of_ne_zero hbs
    have hfle : (id - 1) / s.block_size * s.block_size + 1 ≤ id := by
      have := Nat.div_mul_le_self (id - 1) s.block_size
      omega
    rw [if_neg (Nat.not_lt.mpr (le_trans hfle h2)), if_neg hbs]
    have hdiv : (id - 1) / s.block_size * s.block_size + 1 - 1 =
        (id - 1) / s.block_size * s.block_size := rfl
    rw [hdiv, Nat.mul_div_cancel _ hpos, Nat.mul_mod_left]
    cases hget : s.sequence.get ((id - 1) / s.block_size) with
    | none => rw [hget] at hok; exact absurd hok (by simp)
    | some position =>
      rw [hget] at hok
      dsimp only at hok ⊢
      by_cases hlen : s.packed_data.length < position
      · rw [if_pos hlen] at hok
        exact absurd hok (by simp)
      · rw [if_neg hlen] at hok ⊢
        cases hloop : s.extractLoop ((id - 1) % s.block_size) position
            (s.strlen position) with
        | none => rw [hloop] at hok; exact absurd hok (by simp)
        | some x =>
          rw [hloop] at hok
          exact hok

/-- Witness for `C10_extract_returns_block_head`: id 2 of the scenario
section maps back to block 0's first id 1 with the same string. -/
theorem C10_witness :
    appleSect.extract (1 / appleSect.block_size * appleSect.block_size + 1) =
      some appleBytes :=
  C10_extract_returns_block_head appleSect 2 appleBytes (by decide)
    (by decide) (by decide)

/-- C9: every resolver operation is a pure, deterministic function of the
section and its input: results depend only on the section's field values,
and the method-call embeddings (immutable `&self` borrows) leave the section
unchanged. -/
theorem C9_resolver_operations_pure (s t : DictSectPFC) (id : Nat)
    (element : List Nat)
    (h1 : s.num_strings = t.num_strings) (h2 : s.packed_length = t.packed_length)
    (h3 : s.block_size = t.block_size) (h4 : s.sequence = t.sequence)
    (h5 : s.packed_data = t.packed_data) :
    (s.idToStringCall id).1 = (t.idToStringCall id).1 ∧
    (s.locateCall element).1 = (t.locateCall element).1 ∧
    s.numStringsCall.1 = t.numStringsCall.1 ∧
    (s.idToStringCall id).2 = s ∧
    (s.locateCall element).2 = s ∧
    s.numStringsCall.2 = s := by
  obtain ⟨a1, a2, a3, a4, a5⟩ := s
  obtain ⟨b1, b2, b3, b4, b5⟩ := t
  simp only at h1 h2 h3 h4 h5
  subst h1; subst h2; subst h3; subst h4; subst h5
  exact ⟨rfl, rfl, rfl, rfl, rfl, rfl⟩

/-- Witness for `C9_resolver_operations_pure` on the single-block section. -/
theorem C9_witness :
    (bananaSect.idToStringCall 1).1 = (bananaSect.idToStringCall 1).1 ∧
    (bananaSect.locateCall [97]).1 = (bananaSect.locateCall [97]).1 ∧
    bananaSect.numStringsCall.1 = bananaSect.numStringsCall.1 ∧
    (bananaSect.idToStringCall 1).2 = bananaSect ∧
    (bananaSect.locateCall [97]).2 = bananaSect ∧
    bananaSect.numStringsCall.2 = bananaSect :=
  C9_resolver_operations_pure bananaSect bananaSect 1 [97] rfl rfl rfl rfl rfl

/-- C7: one step of the intra-block scan of `locate_in_block`, at any
reachable loop state whose entry decodes to `(delta, vb)`: (1) as soon as the
entry's shared-prefix length `delta` is strictly below the already-matched
prefix `cshared`, the scan breaks with result 0 ("not found") without
examining later entries; (2) if `delta ≥ cshared` and extending the common
prefix with the needle reaches both the needle's length and the
reconstructed string's length, the scan breaks returning the current entry's
in-block id `idInBlock`. -/
theorem C7_intra_block_scan_steps (s : DictSectPFC) (element : List Nat)
    (fuel pos idInBlock cshared : Nat) (tempString : List Nat)
    (delta vb : Nat) (h1 : idInBlock < s.block_size)
    (h2 : pos < s.packed_data.length)
    (hdec : decode_vbyte_delta s.packed_data pos = some (delta, vb)) :
    (delta < cshared →
      s.libLoop element (fuel + 1) pos idInBlock cshared tempString =
        some (0, pos + vb)) ∧
    (cshared ≤ delta →
      cshared + lcpFrom
          (tempString.take delta ++
            (s.packed_data.drop (pos + vb)).take (s.strlen (pos + vb)))
          element cshared = element.length →
      (tempString.take delta ++
          (s.packed_data.drop (pos + vb)).take (s.strlen (pos + vb))).length =
        element.length →
      s.libLoop element (fuel + 1) pos idInBlock cshared tempString =
        some (idInBlock, pos + vb)) := by
  constructor
  · intro hlt
    unfold DictSectPFC.libLoop
    rw [if_pos ⟨h1, h2⟩, hdec]
    dsimp only
    rw [if_neg (Nat.not_le.mpr hlt)]
  · intro hle hm1 hm2
    unfold DictSectPFC.libLoop
    rw [if_pos ⟨h1, h2⟩, hdec]
    dsimp only
    rw [if_pos hle, if_pos ⟨hm1, hm2⟩]

/-- Witness for `C7_intra_block_scan_steps`: on the block store
[0x00, 'a', 0x00] with needle "a", a loop state with `cshared = 1 > 0 = delta`
breaks to 0, and one with `cshared = 0 ≤ delta` and a full match on "a"
breaks returning entry id 1. -/
theorem C7_witness :
    (DictSectPFC.libLoop ⟨4, 3, 4, ⟨1, [0]⟩, [0, 97, 0]⟩ [97] 5 0 1 1 [97] =
      some (0, 1)) ∧
    (DictSectPFC.libLoop ⟨4, 3, 4, ⟨1, [0]⟩, [0, 97, 0]⟩ [97] 5 0 1 0 [97] =
      some (1, 1)) :=
  ⟨(C7_intra_block_scan_steps ⟨4, 3, 4, ⟨1, [0]⟩, [0, 97, 0]⟩ [97] 4 0 1 1
      [97] 0 1 (by decide) (by decide) (by decide)).1 (by decide),
   (C7_intra_block_scan_steps ⟨4, 3, 4, ⟨1, [0]⟩, [0, 97, 0]⟩ [97] 4 0 1 0
      [97] 0 1 (by decide) (by decide) (by decide)).2 (by decide) (by decide)
      (by decide)⟩

/-- C5: section construction computes the CRC-8 over the marker byte 0x02
followed by the raw encoded bytes of the three header varints, and the
CRC-32C over the `packed_length` block-store bytes read after the index; a
mismatch with the respective stored checksum aborts with a checksum error
(no section value), and only when both match is a section produced, built
from the decoded fields. -/
theorem C5_read_enforces_checksums (crc8 crc32 : List Nat → Nat)
    (seqRead : List Nat → Option (Sequence × List Nat))
    (input r1 r2 r4 r5 rest nb pb bb : List Nat)
    (n p b c8 b0 b1 b2 b3 : Nat) (sq : Sequence)
    (h1 : readVbyte input = some (n, nb, r1))
    (h2 : readVbyte r1 = some (p, pb, r2))
    (h3 : readVbyte r2 = some (b, bb, c8 :: r4))
    (h4 : seqRead r4 = some (sq, r5))
    (h5 : p ≤ r5.length)
    (h6 : r5.drop p = b0 :: b1 :: b2 :: b3 :: rest) :
    (crc8 (2 :: (nb ++ pb ++ bb)) ≠ c8 →
      readSect crc8 crc32 seqRead input = .error .crc8Mismatch) ∧
    (crc8 (2 :: (nb ++ pb ++ bb)) = c8 →
      (crc32 (r5.take p) ≠ b0 + 256 * b1 + 65536 * b2 + 16777216 * b3 →
        readSect crc8 crc32 seqRead input = .error .crc32Mismatch) ∧
      (crc32 (r5.take p) = b0 + 256 * b1 + 65536 * b2 + 16777216 * b3 →
        readSect crc8 crc32 seqRead input = .ok ⟨n, p, b, sq, r5.take p⟩)) := by
  have hple : p ≤ usizeMax := readVbyte_le_usizeMax h2
  unfold readSect
  rw [h1]; dsimp only
  rw [h2]; dsimp only
  rw [h3]; dsimp only
  refine ⟨fun hne => ?_, fun heq => ?_⟩
  · rw [if_pos hne]
  · rw [if_neg (not_not_intro heq), if_neg (Nat.not_lt.mpr hple), h4]
    dsimp only
    rw [if_neg (Nat.not_lt.mpr h5), h6]
    dsimp only
    refine ⟨fun hne32 => ?_, fun heq32 => ?_⟩
    · rw [if_pos hne32]
    · rw [if_neg (not_not_intro heq32)]

/-- Witness for `C5_read_enforces_checksums` with constant stand-in checksum
functions, an index reader that consumes nothing, and header varints
1, 2, 3: both checks pass and the section is produced. -/
theorem C5_witness :
    readSect (fun _ => 7) (fun _ => 9) (fun l => some (⟨0, []⟩, l))
      [1, 2, 3, 7, 10, 11, 9, 0, 0, 0] = .ok ⟨1, 2, 3, ⟨0, []⟩, [10, 11]⟩ := by
  have h := C5_read_enforces_checksums (fun _ => 7) (fun _ => 9)
    (fun l => some (⟨0, []⟩, l)) [1, 2, 3, 7, 10, 11, 9, 0, 0, 0]
    [2, 3, 7, 10, 11, 9, 0, 0, 0] [3, 7, 10, 11, 9, 0, 0, 0]
    [10, 11, 9, 0, 0, 0] [10, 11, 9, 0, 0, 0] [] [1] [2] [3]
    1 2 3 7 9 0 0 0 ⟨0, []⟩ rfl rfl rfl rfl (by decide) rfl
  exact (h.2 rfl).2 rfl

end HdtRs
